import Mathlib

set_option autoImplicit false

/-
Verification of the cockroachdb/k8s certificate-request tooling.

The development shallowly embeds the Go sources:
  - request-cert/main.go (current variant): serverCSR, clientCSR, requestCertificate,
    writeFiles;
  - the KubernetesCertificateManager (GetKubernetesCertificate, GetSecrets,
    StoreSecrets): the poll-ticker variant of submit and await;
  - the historical watch-based getKubernetesCertificate and the oldest
    kubernetesSigner variant, together with the legacy getSecrets helper.

Byte slices become List Nat, nil-able slices become Option (List Nat), the
Kubernetes control plane and the secret store become explicit association-list
states, and the infinite poll loops become fuel-indexed iteration where a result
of none means the loop is still running after that many iterations.
-/

namespace CockroachK8s

/-- Bytes models a Go byte slice as a list of bytes. -/
abbrev Bytes := List Nat

/-! ## Data model: certificates/v1beta1 objects as used by the source -/

/-- ConditionType models certificates.RequestConditionType; the source only
distinguishes CertificateApproved from everything else (denial). -/
inductive ConditionType where
  | approved
  | denied
  deriving DecidableEq, Repr

/-- Condition models certificates.CertificateSigningRequestCondition with the
fields the source reads (type, reason, message). -/
structure Condition where
  type : ConditionType
  reason : String := ""
  message : String := ""
  deriving DecidableEq, Repr

/-- KeyUsage models certificates.KeyUsage restricted to the four values the
source mentions. -/
inductive KeyUsage where
  | digitalSignature
  | keyEncipherment
  | clientAuth
  | serverAuth
  deriving DecidableEq, Repr

/-- CSRStatus models certificates.CertificateSigningRequestStatus: the ordered
condition list and the nil-able issued certificate blob. -/
structure CSRStatus where
  conditions : List Condition
  certificate : Option Bytes
  deriving DecidableEq, Repr

/-- CSRObject models a stored certificates.CertificateSigningRequest: name,
control-plane assigned UID, spec fields and status. -/
structure CSRObject where
  name : String
  uid : Nat
  request : Bytes
  usages : List KeyUsage
  signerName : Option String
  status : CSRStatus
  deriving DecidableEq, Repr

/-! ## Building the create request

Embeds KubernetesCertificateManager.GetKubernetesCertificate lines 262-292:
the key-usage list and the signer name sent with the create call. -/

/-- managerKeyUsages embeds the keyUsages construction: digital signature,
key encipherment and client auth always, server auth appended iff
wantServerAuth. -/
def managerKeyUsages (wantServerAuth : Bool) : List KeyUsage :=
  let keyUsages : List KeyUsage :=
    [KeyUsage.digitalSignature, KeyUsage.keyEncipherment, KeyUsage.clientAuth]
  if wantServerAuth then keyUsages ++ [KeyUsage.serverAuth] else keyUsages

/-- managerSignerName embeds the SignerName closure: legacy-unknown for servers,
kube-apiserver-client for clients. -/
def managerSignerName (wantServerAuth : Bool) : Option String :=
  if wantServerAuth then some "kubernetes.io/legacy-unknown"
  else some "kubernetes.io/kube-apiserver-client"

/-- CSRCreateRequest is the payload the manager hands to the create call. -/
structure CSRCreateRequest where
  name : String
  request : Bytes
  usages : List KeyUsage
  signerName : Option String
  deriving DecidableEq, Repr

/-- buildCSRRequest embeds the req construction in GetKubernetesCertificate. -/
def buildCSRRequest (csrName : String) (csr : Bytes) (wantServerAuth : Bool) :
    CSRCreateRequest :=
  { name := csrName
    request := csr
    usages := managerKeyUsages wantServerAuth
    signerName := managerSignerName wantServerAuth }

/-! ## The control plane as an explicit state -/

/-- CreateFailure distinguishes the one creation failure the source branches on
(IsAlreadyExists) from every other failure. -/
inductive CreateFailure where
  | alreadyExists
  | other (msg : String)
  deriving DecidableEq, Repr

/-- ControlPlane is the signing-request store: named objects, a fresh-UID
counter, and an optional injected non-duplicate creation failure used to model
the control plane rejecting a create for reasons other than a name collision. -/
structure ControlPlane where
  csrs : List (String × CSRObject)
  nextUID : Nat
  createFault : Option String := none
  deriving DecidableEq, Repr

/-- lookupCSR finds the object stored under a name. -/
def lookupCSR (cp : ControlPlane) (name : String) : Option CSRObject :=
  (cp.csrs.find? (fun p => p.1 = name)).map (fun p => p.2)

/-- createCSR embeds the create call: a name collision fails with
alreadyExists; an injected fault fails with that message; otherwise the object
is stored with a fresh UID and empty status. -/
def createCSR (cp : ControlPlane) (req : CSRCreateRequest) :
    Except CreateFailure (CSRObject × ControlPlane) :=
  if (lookupCSR cp req.name).isSome then Except.error CreateFailure.alreadyExists
  else
    match cp.createFault with
    | some msg => Except.error (CreateFailure.other msg)
    | none =>
      let obj : CSRObject :=
        { name := req.name
          uid := cp.nextUID
          request := req.request
          usages := req.usages
          signerName := req.signerName
          status := { conditions := [], certificate := none } }
      Except.ok (obj, { cp with csrs := (req.name, obj) :: cp.csrs, nextUID := cp.nextUID + 1 })

/-- getCSRByName embeds the get call used on the reuse path. -/
def getCSRByName (cp : ControlPlane) (name : String) : Except CreateFailure CSRObject :=
  match lookupCSR cp name with
  | some obj => Except.ok obj
  | none => Except.error (CreateFailure.other "not found")

/-- SubmitError wraps the creation failure the way errors.Wrapf does: the
message names the failed create and the cause is preserved. -/
inductive SubmitError where
  | createFailed (name : String) (cause : CreateFailure)
  deriving DecidableEq, Repr

/-- submitCSR embeds the submission phase of GetKubernetesCertificate
(lines 297-309): create the request; if that fails with IsAlreadyExists and
allowPrevious is set, fetch the existing request by name and proceed with it;
any remaining error is wrapped and returned. -/
def submitCSR (cp : ControlPlane) (csrName : String) (csr : Bytes)
    (wantServerAuth : Bool) (allowPrevious : Bool) :
    Except SubmitError (CSRObject × ControlPlane) :=
  let req := buildCSRRequest csrName csr wantServerAuth
  match createCSR cp req with
  | Except.ok (obj, cp') => Except.ok (obj, cp')
  | Except.error e =>
    if e = CreateFailure.alreadyExists ∧ allowPrevious then
      match getCSRByName cp req.name with
      | Except.ok obj => Except.ok (obj, cp)
      | Except.error e' => Except.error (SubmitError.createFailed req.name e')
    else Except.error (SubmitError.createFailed req.name e)

/-! ## The await phase of GetKubernetesCertificate (poll-ticker variant)

Embeds lines 313-360: every tick the request is fetched by name; a fetch error
aborts; a UID mismatch is only logged; an empty condition list keeps waiting;
the LAST condition not being Approved aborts with a denial; Approved with a nil
certificate keeps waiting; Approved with a certificate terminates with it. -/

/-- StepDecision is the outcome of one iteration of the poll loop body. -/
inductive StepDecision where
  | keepWaiting
  | denied (msg : String)
  | fetchFailed (msg : String)
  | provisioned (cert : Bytes)
  deriving DecidableEq, Repr

/-- awaitStep embeds the body of the Waiter loop on one fetch outcome. -/
def awaitStep (fetched : Except String CSRObject) : StepDecision :=
  match fetched with
  | Except.error e => StepDecision.fetchFailed e
  | Except.ok getResp =>
    match getResp.status.conditions.getLast? with
    | none => StepDecision.keepWaiting
    | some cond =>
      if cond.type ≠ ConditionType.approved then StepDecision.denied "csr not approved"
      else
        match getResp.status.certificate with
        | none => StepDecision.keepWaiting
        | some c => StepDecision.provisioned c

/-- awaitLoop iterates awaitStep over a trace of fetch outcomes, indexed by the
poll number. A result of none means the loop is still running after the given
number of iterations; the source loop has no deadline, so fuel only bounds the
observation, not the program. -/
def awaitLoop (fetch : Nat → Except String CSRObject) : Nat → Nat → Option (Except String Bytes)
  | 0, _ => none
  | fuel + 1, i =>
    match awaitStep (fetch i) with
    | StepDecision.keepWaiting => awaitLoop fetch fuel (i + 1)
    | StepDecision.denied msg => some (Except.error msg)
    | StepDecision.fetchFailed msg => some (Except.error msg)
    | StepDecision.provisioned c => some (Except.ok c)

/-! ## The historical watch-based getKubernetesCertificate

Embeds the older variant (part_000 lines 101-158). It consumes a watch stream
with a one-hour server-side timeout (watchTimeout). The loop body: a closed
channel hits a break statement that in Go only leaves the select, so the for
loop keeps running; an event for a different UID is logged and skipped; the
30-second still-waiting timer case continues; otherwise the last condition and
the certificate field are examined exactly as in the poll variant. -/

/-- watchTimeoutSeconds embeds the watchTimeout constant (one hour). -/
def watchTimeoutSeconds : Nat := 3600

/-- WatchEvent is one observation of the watch channel. -/
inductive WatchEvent where
  | closed
  | update (uid : Nat) (status : CSRStatus)
  | stillWaitingTick
  deriving DecidableEq, Repr

/-- watchStep embeds the body of the watch loop: the closed-channel break only
exits the select statement, so it is a keepWaiting, not a return. -/
def watchStep (expectedUID : Nat) (ev : WatchEvent) : StepDecision :=
  match ev with
  | WatchEvent.closed => StepDecision.keepWaiting
  | WatchEvent.stillWaitingTick => StepDecision.keepWaiting
  | WatchEvent.update uid status =>
    if uid ≠ expectedUID then StepDecision.keepWaiting
    else
      match status.conditions.getLast? with
      | none => StepDecision.keepWaiting
      | some cond =>
        if cond.type ≠ ConditionType.approved then StepDecision.denied "CSR not approved"
        else
          match status.certificate with
          | none => StepDecision.keepWaiting
          | some c => StepDecision.provisioned c

/-- watchLoop iterates watchStep over a stream of watch events; none means the
loop is still spinning after the given number of events. -/
def watchLoop (expectedUID : Nat) (events : Nat → WatchEvent) :
    Nat → Nat → Option (Except String Bytes)
  | 0, _ => none
  | fuel + 1, i =>
    match watchStep expectedUID (events i) with
    | StepDecision.keepWaiting => watchLoop expectedUID events fuel (i + 1)
    | StepDecision.denied msg => some (Except.error msg)
    | StepDecision.fetchFailed msg => some (Except.error msg)
    | StepDecision.provisioned c => some (Except.ok c)

/-! ## The oldest variant: kubernetesSigner

Embeds part_001 lines 79-110: poll every five seconds until the condition list
is non-empty, then decide ONCE from Conditions at index ZERO: if its type is
not Approved return an error, otherwise return the certificate field as-is
(which may be nil). -/

/-- signerPollLoop embeds the poll-until-conditions-non-empty loop; none means
still polling after the given number of fetches. -/
def signerPollLoop (fetch : Nat → Except String CSRObject) :
    Nat → Nat → Option (Except String CSRObject)
  | 0, _ => none
  | fuel + 1, i =>
    match fetch i with
    | Except.error e => some (Except.error e)
    | Except.ok resp =>
      if resp.status.conditions.isEmpty then signerPollLoop fetch fuel (i + 1)
      else some (Except.ok resp)

/-- kubernetesSignerDecision embeds the code after the loop: status is read
from Conditions index 0 (the head, not the most recent), and on approval the
nil-able certificate field is returned unchecked. -/
def kubernetesSignerDecision (resp : CSRObject) : Except String (Option Bytes) :=
  match resp.status.conditions.head? with
  | none => Except.error "index out of range"
  | some status =>
    if status.type ≠ ConditionType.approved then Except.error "certificate not approved"
    else Except.ok resp.status.certificate

/-- kubernetesSignerAwait is the full waiting phase of kubernetesSigner:
poll until conditions appear, then decide once from the first condition. -/
def kubernetesSignerAwait (fetch : Nat → Except String CSRObject) (fuel : Nat) :
    Option (Except String (Option Bytes)) :=
  (signerPollLoop fetch fuel 0).map (fun r =>
    match r with
    | Except.error e => Except.error e
    | Except.ok resp => kubernetesSignerDecision resp)

/-! ## IP-literal parsing and the CSR template builder

serverCSR (request-cert/main.go lines 186-208) classifies each host by
net.ParseIP. The parser below is modelled from the Go standard library:
dispatch on the first dot or colon, dotted-quad IPv4 with fields of at most
three digits, no leading zeros, each at most 255, and colon-hex IPv6 with at
most one double-colon elision. Simplifications that affect no claim: no zone
suffix, no dotted-quad tail inside an IPv6 literal, and IPv4 results are four
bytes rather than the 16-byte v4-in-v6 form. -/

/-- IPAddr is a parsed IP address as its list of bytes. -/
abbrev IPAddr := List Nat

/-- hexDigitVal maps a hexadecimal digit character to its value. -/
def hexDigitVal (c : Char) : Option Nat :=
  if c.isDigit then some (c.toNat - 48)
  else if 'a' ≤ c ∧ c ≤ 'f' then some (c.toNat - 87)
  else if 'A' ≤ c ∧ c ≤ 'F' then some (c.toNat - 55)
  else none

/-- splitOnChar splits a character list on a separator, keeping empty pieces,
like String.splitOn with a one-character separator. -/
def splitOnChar (sep : Char) : List Char → List (List Char)
  | [] => [[]]
  | c :: cs =>
    let rest := splitOnChar sep cs
    if c = sep then [] :: rest
    else
      match rest with
      | r :: rs => (c :: r) :: rs
      | [] => [[c]]

/-- parseIPv4Field parses one dotted-quad field: non-empty, decimal digits
only, no leading zero, value at most 255. -/
def parseIPv4Field (cs : List Char) : Option Nat :=
  if cs.isEmpty then none
  else if ¬ cs.all Char.isDigit then none
  else if 1 < cs.length ∧ cs.head? = some '0' then none
  else
    let n := cs.foldl (fun acc c => acc * 10 + (c.toNat - 48)) 0
    if n ≤ 255 then some n else none

/-- parseIPv4 parses a dotted-quad address: exactly four valid fields. -/
def parseIPv4 (cs : List Char) : Option IPAddr :=
  match (splitOnChar '.' cs).mapM parseIPv4Field with
  | some fields => if fields.length = 4 then some fields else none
  | none => none

/-- parseHexGroup parses one colon-hex group: one to four hex digits. -/
def parseHexGroup (cs : List Char) : Option Nat :=
  if cs.isEmpty ∨ 4 < cs.length then none
  else (cs.mapM hexDigitVal).map (List.foldl (fun a d => a * 16 + d) 0)

/-- groupBytes splits a 16-bit group into its two bytes. -/
def groupBytes (g : Nat) : List Nat := [g / 256, g % 256]

/-- findDoubleColon splits a character list at the first double colon, when
one is present. -/
def findDoubleColon : List Char → Option (List Char × List Char)
  | [] => none
  | ':' :: ':' :: rest => some ([], rest)
  | c :: cs => (findDoubleColon cs).map (fun p => (c :: p.1, p.2))

/-- parseIPv6 parses a colon-hex address, with at most one double-colon
elision standing for at least one zero group. -/
def parseIPv6 (cs : List Char) : Option IPAddr :=
  match findDoubleColon cs with
  | none =>
    match (splitOnChar ':' cs).mapM parseHexGroup with
    | some gs => if gs.length = 8 then some ((gs.map groupBytes).flatten) else none
    | none => none
  | some (l, r) =>
    if (findDoubleColon r).isSome then none
    else
      let lparts := if l.isEmpty then [] else splitOnChar ':' l
      let rparts := if r.isEmpty then [] else splitOnChar ':' r
      match lparts.mapM parseHexGroup, rparts.mapM parseHexGroup with
      | some ls, some rs =>
        if ls.length + rs.length ≤ 7 then
          some ((((ls ++ List.replicate (8 - ls.length - rs.length) 0) ++ rs).map
            groupBytes).flatten)
        else none
      | _, _ => none

/-- parseIP models net.ParseIP: scan for the first dot or colon and hand the
string to the corresponding parser; a string with neither is not an IP. -/
def parseIP (s : String) : Option IPAddr :=
  match s.toList.find? (fun c => c == '.' || c == ':') with
  | some '.' => parseIPv4 s.toList
  | some ':' => parseIPv6 s.toList
  | _ => none

/-- CertificateRequest models the x509.CertificateRequest fields the source
sets: subject organization and common name, IP addresses and DNS names. -/
structure CertificateRequest where
  organization : List String
  commonName : String
  ipAddresses : List IPAddr
  dnsNames : List String
  deriving DecidableEq, Repr

/-- serverCSRStep embeds one iteration of the host-classification loop in
serverCSR: a host that parses as an IP is appended to IPAddresses, any other
host is appended to DNSNames together with the literal token node. -/
def serverCSRStep (csr : CertificateRequest) (h : String) : CertificateRequest :=
  match parseIP h with
  | some ip => { csr with ipAddresses := csr.ipAddresses ++ [ip] }
  | none => { csr with dnsNames := csr.dnsNames ++ [h, "node"] }

/-- serverCSR embeds serverCSR of request-cert/main.go: the fixed subject and
the classification loop over the host list. -/
def serverCSR (hosts : List String) : CertificateRequest :=
  hosts.foldl serverCSRStep
    { organization := ["system:nodes"]
      commonName := "system:node:Cockroach"
      ipAddresses := []
      dnsNames := [] }

/-- clientCSR embeds clientCSR of request-cert/main.go. -/
def clientCSR (user : String) : CertificateRequest :=
  { organization := ["Cockroach"]
    commonName := user
    ipAddresses := []
    dnsNames := [] }

/-! ## The secret store

Embeds the two get variants: KubernetesCertificateManager.GetSecrets
(part_000 lines 383-406) which rejects an entry missing either blob, and the
legacy getSecrets helper (part_000 lines 180-196) whose comment says missing
fields are let through as nil. A Go map lookup of an absent key yields nil, so
the two Data entries are modelled as Option fields. -/

/-- SecretData models the Data map of a stored secret restricted to the two
keys the source uses; none models an absent key (a nil slice). -/
structure SecretData where
  cert : Option Bytes
  key : Option Bytes
  deriving DecidableEq, Repr

/-- SecretStore is the named secret store. -/
abbrev SecretStore := List (String × SecretData)

/-- lookupSecret finds the secret stored under a name; none models the
IsNotFound error of the get call. -/
def lookupSecret (st : SecretStore) (name : String) : Option SecretData :=
  (st.find? (fun p => p.1 = name)).map (fun p => p.2)

/-- GetSecrets embeds KubernetesCertificateManager.GetSecrets: not-found gives
(nil, nil) with no error; an entry without a cert blob errors with missing
certificate; an entry without a key blob errors with missing private key. -/
def GetSecrets (st : SecretStore) (name : String) :
    Except String (Option Bytes × Option Bytes) :=
  match lookupSecret st name with
  | none => Except.ok (none, none)
  | some secret =>
    if secret.cert = none then Except.error "missing certificate"
    else if secret.key = none then Except.error "missing private key"
    else Except.ok (secret.cert, secret.key)

/-- getSecrets embeds the legacy helper: not-found gives (nil, nil) with no
error, and missing fields are returned as nil with no error. -/
def getSecrets (st : SecretStore) (name : String) :
    Except String (Option Bytes × Option Bytes) :=
  match lookupSecret st name with
  | none => Except.ok (none, none)
  | some secret => Except.ok (secret.cert, secret.key)

/-- StoreSecrets embeds KubernetesCertificateManager.StoreSecrets: create a new
entry with both blobs under the name (a duplicate name fails like the
underlying create call; that behaviour is outside the claims). -/
def StoreSecrets (st : SecretStore) (name : String) (cert key : Bytes) :
    Except String SecretStore :=
  if (lookupSecret st name).isSome then Except.error "already exists"
  else Except.ok ((name, { cert := some cert, key := some key }) :: st)

/-! ## File persistence

Embeds writeFiles (request-cert/main.go lines 220-258) over an explicit
filesystem state. Failures of the primitives are injected through fault flags;
a failing os.Remove is modelled as leaving the path in place, matching the
POSIX behaviour the source runs against, and the source only logs that error
and proceeds to the symlink call. -/

/-- FileSystem is the local filesystem state the source touches: directories,
regular files with content and mode, and symlinks with their target. -/
structure FileSystem where
  dirs : List String
  files : List (String × (Bytes × Nat))
  symlinks : List (String × String)
  deriving DecidableEq, Repr

/-- IOFaults selects which primitive calls fail; removeFails models os.Remove
failing with an error other than IsNotExist. -/
structure IOFaults where
  mkdirFails : Bool := false
  writeKeyFails : Bool := false
  writeCertFails : Bool := false
  removeFails : Bool := false
  symlinkFails : Bool := false
  deriving DecidableEq, Repr

/-- noFaults is the fault assignment under which every primitive succeeds. -/
def noFaults : IOFaults := {}

/-- pathExists tells whether anything (file, symlink or directory) occupies a
path. -/
def pathExists (fs : FileSystem) (path : String) : Bool :=
  fs.files.any (fun p => p.1 = path) || fs.symlinks.any (fun p => p.1 = path)
    || fs.dirs.contains path

/-- mkdirAllFS models os.MkdirAll: succeeds whether or not the directory
already exists. -/
def mkdirAllFS (fault : Bool) (fs : FileSystem) (dir : String) :
    Except String FileSystem :=
  if fault then Except.error "could not create directory"
  else if fs.dirs.contains dir then Except.ok fs
  else Except.ok { fs with dirs := dir :: fs.dirs }

/-- writeFileFS models ioutil.WriteFile: create or truncate the file with the
given content and mode. -/
def writeFileFS (fault : Bool) (fs : FileSystem) (path : String)
    (content : Bytes) (mode : Nat) : Except String FileSystem :=
  if fault then Except.error "could not write file"
  else
    Except.ok { fs with
      files := (path, (content, mode)) :: fs.files.filter (fun p => p.1 ≠ path) }

/-- removeFS models the os.Remove call as the source uses it: a non-existing
path is a not-found error the source ignores; an injected failure leaves the
path in place; either way the source only logs and continues, so the
primitive returns the (possibly unchanged) state. -/
def removeFS (fault : Bool) (fs : FileSystem) (path : String) : FileSystem :=
  if pathExists fs path ∧ ¬ fault then
    { dirs := fs.dirs.filter (fun d => d ≠ path)
      files := fs.files.filter (fun p => p.1 ≠ path)
      symlinks := fs.symlinks.filter (fun p => p.1 ≠ path) }
  else fs

/-- symlinkFS models os.Symlink: fails when the destination already exists. -/
def symlinkFS (fault : Bool) (fs : FileSystem) (target path : String) :
    Except String FileSystem :=
  if fault ∨ pathExists fs path then Except.error "could not create symlink"
  else Except.ok { fs with symlinks := (path, target) :: fs.symlinks }

/-- joinPath models filepath.Join for the two-component case the source uses. -/
def joinPath (dir name : String) : String := dir ++ "/" ++ name

/-- lookupFile reads the content and mode stored at a path. -/
def lookupFile (fs : FileSystem) (path : String) : Option (Bytes × Nat) :=
  (fs.files.find? (fun p => p.1 = path)).map (fun p => p.2)

/-- lookupLink reads the target of the symlink stored at a path. -/
def lookupLink (fs : FileSystem) (path : String) : Option String :=
  (fs.symlinks.find? (fun p => p.1 = path)).map (fun p => p.2)

/-- writeFiles embeds writeFiles of request-cert/main.go: make the directory,
write the key with mode 0400 and the certificate with mode 0644, and when a CA
source is configured remove any previous ca.crt (ignoring not-found and
logging any other removal error without aborting) and create a fresh symlink. -/
def writeFiles (faults : IOFaults) (certsDir symlinkCASource : String)
    (fs : FileSystem) (filePref : String) (pemCert pemKey : Bytes) :
    Except String FileSystem :=
  match mkdirAllFS faults.mkdirFails fs certsDir with
  | Except.error e => Except.error e
  | Except.ok fs1 =>
    match writeFileFS faults.writeKeyFails fs1 (joinPath certsDir (filePref ++ ".key"))
        pemKey 0o400 with
    | Except.error e => Except.error e
    | Except.ok fs2 =>
      match writeFileFS faults.writeCertFails fs2 (joinPath certsDir (filePref ++ ".crt"))
          pemCert 0o644 with
      | Except.error e => Except.error e
      | Except.ok fs3 =>
        if symlinkCASource.length ≠ 0 then
          symlinkFS faults.symlinkFails
            (removeFS faults.removeFails fs3 (joinPath certsDir "ca.crt"))
            symlinkCASource (joinPath certsDir "ca.crt")
        else Except.ok fs3

/-! ## requestCertificate

Embeds requestCertificate (request-cert/main.go lines 136-182). The
cryptographic primitives are parameters of the embedding; the Go triple
(nil, nil, err) returned on every failure path becomes the error branch of
Except, which carries no certificate or key bytes by construction. -/

/-- CryptoOps bundles the outcomes of the cryptographic primitives the source
calls; x509KeyPair models tls.X509KeyPair returning only its error. -/
structure CryptoOps where
  generateKey : Except String Bytes
  marshalPKCS1 : Bytes → Bytes
  pemEncodeRSAKey : Bytes → Bytes
  createCertRequest : Bytes → Except String Bytes
  pemEncodeCertRequest : Bytes → Bytes
  x509KeyPair : Bytes → Bytes → Except String Unit

/-- requestCertificate embeds the source function: generate a key, PEM-encode
it, build and PEM-encode the CSR, obtain the certificate from the manager,
check the pair parses as a matching TLS key pair, and only then return both. -/
def requestCertificate (ops : CryptoOps)
    (getKubernetesCertificate : Bytes → Except String Bytes) :
    Except String (Bytes × Bytes) :=
  match ops.generateKey with
  | Except.error e => Except.error e
  | Except.ok privateKey =>
    let pemKey := ops.pemEncodeRSAKey (ops.marshalPKCS1 privateKey)
    match ops.createCertRequest privateKey with
    | Except.error e => Except.error e
    | Except.ok csrBytes =>
      match getKubernetesCertificate (ops.pemEncodeCertRequest csrBytes) with
      | Except.error e => Except.error e
      | Except.ok pemCert =>
        match ops.x509KeyPair pemCert pemKey with
        | Except.error e => Except.error e
        | Except.ok _ => Except.ok (pemCert, pemKey)

/-- sampleCSR builds a signing request with the given conditions and
certificate, for concrete instantiations. -/
def sampleCSR (conds : List Condition) (cert : Option Bytes) : CSRObject :=
  { name := "test-csr"
    uid := 7
    request := []
    usages := []
    signerName := none
    status := { conditions := conds, certificate := cert } }

/-! ## Helper lemmas -/

/-- Membership in the DNS-name set built by the serverCSR loop: an element is
either already in the accumulator or is a non-IP host of the list, or the
literal node contributed alongside such a host. -/
theorem mem_dnsNames_foldl (hosts : List String) (acc : CertificateRequest) (x : String) :
    x ∈ (hosts.foldl serverCSRStep acc).dnsNames ↔
      x ∈ acc.dnsNames ∨ ∃ h, h ∈ hosts ∧ parseIP h = none ∧ (x = h ∨ x = "node") := by
  induction hosts generalizing acc with
  | nil => simp
  | cons h hs ih =>
    rw [List.foldl_cons, ih]
    unfold serverCSRStep
    cases hp : parseIP h with
    | some ip =>
      simp only [List.mem_cons]
      constructor
      · rintro (hx | ⟨h', hh', hp', hx'⟩)
        · exact Or.inl hx
        · exact Or.inr ⟨h', Or.inr hh', hp', hx'⟩
      · rintro (hx | ⟨h', hh' | hh', hp', hx'⟩)
        · exact Or.inl hx
        · rw [hh'] at hp'; rw [hp'] at hp; exact absurd hp (by simp)
        · exact Or.inr ⟨h', hh', hp', hx'⟩
    | none =>
      simp only [List.mem_cons, List.mem_append]
      constructor
      · rintro (⟨hx | hx⟩ | ⟨h', hh', hp', hx'⟩)
        · exact Or.inl hx
        · rcases hx with hx | hx | hx
          · exact Or.inr ⟨h, Or.inl rfl, hp, Or.inl hx⟩
          · exact Or.inr ⟨h, Or.inl rfl, hp, Or.inr hx⟩
          · cases hx
        · exact Or.inr ⟨h', Or.inr hh', hp', hx'⟩
      · rintro (hx | ⟨h', hh' | hh', hp', hx'⟩)
        · exact Or.inl (Or.inl hx)
        · rcases hx' with hx' | hx'
          · exact Or.inl (Or.inr (by rw [hx', hh']; simp))
          · exact Or.inl (Or.inr (by rw [hx']; simp))
        · exact Or.inr ⟨h', hh', hp', hx'⟩

/-- Membership in the IP-address set built by the serverCSR loop: an element
is either already in the accumulator or the parse of some host of the list. -/
theorem mem_ipAddresses_foldl (hosts : List String) (acc : CertificateRequest) (ip : IPAddr) :
    ip ∈ (hosts.foldl serverCSRStep acc).ipAddresses ↔
      ip ∈ acc.ipAddresses ∨ ∃ h, h ∈ hosts ∧ parseIP h = some ip := by
  induction hosts generalizing acc with
  | nil => simp
  | cons h hs ih =>
    rw [List.foldl_cons, ih]
    unfold serverCSRStep
    cases hp : parseIP h with
    | some ip' =>
      simp only [List.mem_cons, List.mem_append, List.mem_singleton]
      constructor
      · rintro (⟨hx | rfl | hx⟩ | ⟨h', hh', hp'⟩)
        · exact Or.inl hx
        · exact Or.inr ⟨h, Or.inl rfl, hp⟩
        · cases hx
        · exact Or.inr ⟨h', Or.inr hh', hp'⟩
      · rintro (hx | ⟨h', hh' | hh', hp'⟩)
        · exact Or.inl (Or.inl hx)
        · rw [hh'] at hp'; rw [hp'] at hp; injection hp with h0
          exact Or.inl (Or.inr (Or.inl h0))
        · exact Or.inr ⟨h', hh', hp'⟩
    | none =>
      simp only [List.mem_cons]
      constructor
      · rintro (hx | ⟨h', hh', hp'⟩)
        · exact Or.inl hx
        · exact Or.inr ⟨h', Or.inr hh', hp'⟩
      · rintro (hx | ⟨h', hh' | hh', hp'⟩)
        · exact Or.inl hx
        · rw [hh'] at hp'; rw [hp'] at hp; cases hp
        · exact Or.inr ⟨h', hh', hp'⟩

/-- parseIP rejects the literal token node: it has neither a dot nor a colon. -/
theorem parseIP_node : parseIP "node" = none := by decide

/-- awaitLoop never returns while every step keeps waiting. -/
theorem awaitLoop_none_of_keepWaiting (fetch : Nat → Except String CSRObject)
    (h : ∀ i, awaitStep (fetch i) = StepDecision.keepWaiting) :
    ∀ fuel i, awaitLoop fetch fuel i = none := by
  intro fuel
  induction fuel with
  | zero => intro i; rfl
  | succ n ih =>
    intro i
    simp only [awaitLoop, h i]
    exact ih (i + 1)

/-- watchLoop never returns while every step keeps waiting. -/
theorem watchLoop_none_of_keepWaiting (uid : Nat) (events : Nat → WatchEvent)
    (h : ∀ i, watchStep uid (events i) = StepDecision.keepWaiting) :
    ∀ fuel i, watchLoop uid events fuel i = none := by
  intro fuel
  induction fuel with
  | zero => intro i; rfl
  | succ n ih =>
    intro i
    simp only [watchLoop, h i]
    exact ih (i + 1)

/-- awaitStep yields a certificate exactly when the fetch succeeded, the most
recently appended condition is Approved, and the certificate field holds it. -/
theorem awaitStep_provisioned_iff (f : Except String CSRObject) (c : Bytes) :
    awaitStep f = StepDecision.provisioned c ↔
      ∃ obj, f = Except.ok obj
        ∧ obj.status.conditions.getLast?.map Condition.type = some ConditionType.approved
        ∧ obj.status.certificate = some c := by
  cases f with
  | error e => simp [awaitStep]
  | ok obj =>
    cases hl : obj.status.conditions.getLast? with
    | none => simp [awaitStep, hl]
    | some cond =>
      by_cases hty : cond.type = ConditionType.approved
      · cases hc : obj.status.certificate with
        | none => simp [awaitStep, hl, hty, hc]
        | some c' => simp [awaitStep, hl, hty, hc]
      · simp [awaitStep, hl, hty]

/-- awaitStep keeps waiting on an approved request whose certificate has not
yet materialized. -/
theorem awaitStep_keepWaiting_of_approved_noCert (obj : CSRObject)
    (hap : obj.status.conditions.getLast?.map Condition.type = some ConditionType.approved)
    (hc : obj.status.certificate = none) :
    awaitStep (Except.ok obj) = StepDecision.keepWaiting := by
  cases hl : obj.status.conditions.getLast? with
  | none => rw [hl] at hap; cases hap
  | some cond =>
    rw [hl] at hap
    simp only [Option.map_some'] at hap
    injection hap with hap
    simp [awaitStep, hl, hap, hc]

/-- awaitLoop only ever returns a certificate that a fetched, approved request
carried in its certificate field. -/
theorem awaitLoop_ok_origin (fetch : Nat → Except String CSRObject) :
    ∀ (fuel i : Nat) (c : Bytes),
      awaitLoop fetch fuel i = some (Except.ok c) →
      ∃ j obj, i ≤ j ∧ fetch j = Except.ok obj
        ∧ obj.status.conditions.getLast?.map Condition.type = some ConditionType.approved
        ∧ obj.status.certificate = some c := by
  intro fuel
  induction fuel with
  | zero => intro i c h; cases h
  | succ n ih =>
    intro i c h
    cases hstep : awaitStep (fetch i) with
    | keepWaiting =>
      simp only [awaitLoop, hstep] at h
      rcases ih (i + 1) c h with ⟨j, obj, hij, hrest⟩
      exact ⟨j, obj, by omega, hrest⟩
    | denied msg => simp [awaitLoop, hstep] at h
    | fetchFailed msg => simp [awaitLoop, hstep] at h
    | provisioned c' =>
      simp only [awaitLoop, hstep, Option.some_inj] at h
      injection h with h
      rcases (awaitStep_provisioned_iff (fetch i) c').1 hstep with ⟨obj, hf, hap, hc⟩
      exact ⟨i, obj, Nat.le_refl i, hf, hap, by rw [hc, h]⟩

/-- submitCSR with allowPrevious set adopts an existing same-name request:
no error, no state change, the stored identity is returned. -/
theorem submitCSR_reuse (cp : ControlPlane) (csrName : String) (csr : Bytes)
    (wsa : Bool) (old : CSRObject) (h : lookupCSR cp csrName = some old) :
    submitCSR cp csrName csr wsa true = Except.ok (old, cp) := by
  simp [submitCSR, createCSR, buildCSRRequest, getCSRByName, h]

/-- mkdirAllFS without a fault succeeds whether or not the directory exists,
leaves files and symlinks alone, and ends with the directory present. -/
theorem mkdirAllFS_noFault (fs : FileSystem) (dir : String) :
    ∃ fs1, mkdirAllFS false fs dir = Except.ok fs1 ∧ dir ∈ fs1.dirs
      ∧ fs1.files = fs.files ∧ fs1.symlinks = fs.symlinks := by
  by_cases h : dir ∈ fs.dirs
  · exact ⟨fs, by simp [mkdirAllFS, h], h, rfl, rfl⟩
  · exact ⟨{ fs with dirs := dir :: fs.dirs }, by simp [mkdirAllFS, h],
      List.mem_cons_self dir fs.dirs, rfl, rfl⟩

/-- writeFileFS without a fault replaces the entry at the path. -/
theorem writeFileFS_noFault (fs : FileSystem) (path : String) (content : Bytes) (mode : Nat) :
    writeFileFS false fs path content mode
      = Except.ok { fs with
          files := (path, (content, mode)) :: fs.files.filter (fun p => p.1 ≠ path) } := rfl

/-- Filtering out one key leaves find? on any other key unchanged. -/
theorem find?_filter_ne {α : Type} (l : List (String × α)) (path p' : String)
    (hne : p' ≠ path) :
    (l.filter (fun q => q.1 ≠ path)).find? (fun q => q.1 = p')
      = l.find? (fun q => q.1 = p') := by
  induction l with
  | nil => rfl
  | cons a l ih =>
    by_cases ha : a.1 = path
    · have h1 : (a :: l).filter (fun q => q.1 ≠ path) = l.filter (fun q => q.1 ≠ path) :=
        List.filter_cons_of_neg (by simp [ha])
      have h2 : (a :: l).find? (fun q => q.1 = p') = l.find? (fun q => q.1 = p') :=
        List.find?_cons_of_neg _ (by simp [ha, Ne.symm hne])
      rw [h1, ih, h2]
    · have h1 : (a :: l).filter (fun q => q.1 ≠ path) = a :: l.filter (fun q => q.1 ≠ path) :=
        List.filter_cons_of_pos (by simp [ha])
      by_cases hm : a.1 = p'
      · rw [h1, List.find?_cons_of_pos _ (by simp [hm]), List.find?_cons_of_pos _ (by simp [hm])]
      · rw [h1, List.find?_cons_of_neg _ (by simp [hm]), ih,
          List.find?_cons_of_neg _ (by simp [hm])]

/-- lookupFile at the freshly written path returns the new content and mode. -/
theorem lookupFile_write_self (fs : FileSystem) (path : String) (c : Bytes) (m : Nat) :
    lookupFile { fs with
        files := (path, (c, m)) :: fs.files.filter (fun p => p.1 ≠ path) } path
      = some (c, m) := by
  unfold lookupFile
  rw [List.find?_cons_of_pos _ (by simp)]
  rfl

/-- lookupFile at any other path is unchanged by a write. -/
theorem lookupFile_write_other (fs : FileSystem) (path p' : String) (c : Bytes) (m : Nat)
    (h : p' ≠ path) :
    lookupFile { fs with
        files := (path, (c, m)) :: fs.files.filter (fun p => p.1 ≠ path) } p'
      = lookupFile fs p' := by
  unfold lookupFile
  rw [List.find?_cons_of_neg _ (by simp [Ne.symm h]), find?_filter_ne _ path p' h]

/-- After a faultless remove, nothing occupies the removed path. -/
theorem pathExists_removeFS_self (fs : FileSystem) (path : String) :
    pathExists (removeFS false fs path) path = false := by
  unfold removeFS
  by_cases h : pathExists fs path = true
  · simp only [h, not_false_eq_true, and_self, if_true]
    simp [pathExists, List.any_eq_true, List.mem_filter]
  · simp only [Bool.not_eq_true] at h
    simp [h]

/-- removeFS leaves files at other paths alone. -/
theorem removeFS_files_ne (fault : Bool) (fs : FileSystem) (path p' : String)
    (h : p' ≠ path) :
    lookupFile (removeFS fault fs path) p' = lookupFile fs p' := by
  unfold removeFS
  split
  · unfold lookupFile
    rw [find?_filter_ne _ path p' h]
  · rfl

/-- removeFS keeps directories with other names. -/
theorem removeFS_dirs_mem (fault : Bool) (fs : FileSystem) (path d : String)
    (h : d ≠ path) (hd : d ∈ fs.dirs) : d ∈ (removeFS fault fs path).dirs := by
  unfold removeFS
  split
  · simp [List.mem_filter, hd, h]
  · exact hd

/-- symlinkFS without a fault succeeds on a free path. -/
theorem symlinkFS_noFault (fs : FileSystem) (target path : String)
    (h : pathExists fs path = false) :
    symlinkFS false fs target path
      = Except.ok { fs with symlinks := (path, target) :: fs.symlinks } := by
  simp [symlinkFS, h]

/-- lookupLink at the freshly created symlink returns its target. -/
theorem lookupLink_cons_self (fs : FileSystem) (path target : String) :
    lookupLink { fs with symlinks := (path, target) :: fs.symlinks } path = some target := by
  unfold lookupLink
  rw [List.find?_cons_of_pos _ (by simp)]
  rfl

/-- A directory name never equals a path joined below it. -/
theorem ne_joinPath_self (dir name : String) : dir ≠ joinPath dir name := by
  intro h
  have hlen := congrArg String.length h
  rw [joinPath] at hlen
  have hone : ("/" : String).length = 1 := rfl
  simp [String.length_append, hone] at hlen
  omega

/-! ## Claim theorems -/

/-- C5: for every host list handed to serverCSR, classification is by
IP-literal parsing: a host that parses contributes its address to the
IP-address set and never appears in the DNS-name set (every DNS-name element
fails IP parsing, including the appended literal node); a host that does not
parse appears in the DNS-name set and cannot account for any IP-address
element (every IP-address element is the parse of some host). The partition of
the host elements is therefore total and disjoint. -/
theorem serverCSR_partitions_hosts :
    (∀ (hosts : List String) (h : String), h ∈ hosts →
      (∀ ip, parseIP h = some ip → ip ∈ (serverCSR hosts).ipAddresses)
      ∧ (parseIP h = none → h ∈ (serverCSR hosts).dnsNames))
    ∧ (∀ (hosts : List String) (d : String), d ∈ (serverCSR hosts).dnsNames →
        parseIP d = none)
    ∧ (∀ (hosts : List String) (ip : IPAddr), ip ∈ (serverCSR hosts).ipAddresses →
        ∃ h, h ∈ hosts ∧ parseIP h = some ip) := by
  refine ⟨fun hosts h hh => ⟨fun ip hip => ?_, fun hnone => ?_⟩,
    fun hosts d hd => ?_, fun hosts ip hip => ?_⟩
  · rw [serverCSR, mem_ipAddresses_foldl]
    exact Or.inr ⟨h, hh, hip⟩
  · rw [serverCSR, mem_dnsNames_foldl]
    exact Or.inr ⟨h, hh, hnone, Or.inl rfl⟩
  · rw [serverCSR, mem_dnsNames_foldl] at hd
    rcases hd with hd | ⟨h', _, hp', hx'⟩
    · simp at hd
    · rcases hx' with rfl | rfl
      · exact hp'
      · exact parseIP_node
  · rw [serverCSR, mem_ipAddresses_foldl] at hip
    rcases hip with hip | hip
    · simp at hip
    · exact hip

/-- C5 witness: on the host list with one IP literal and one DNS name, the IP
lands in the IP-address set and the name in the DNS-name set. -/
theorem serverCSR_partitions_hosts_witness :
    [10, 0, 0, 1] ∈ (serverCSR ["10.0.0.1", "db"]).ipAddresses
    ∧ "db" ∈ (serverCSR ["10.0.0.1", "db"]).dnsNames :=
  ⟨(serverCSR_partitions_hosts.1 ["10.0.0.1", "db"] "10.0.0.1" (by simp)).1
      [10, 0, 0, 1] (by decide),
    (serverCSR_partitions_hosts.1 ["10.0.0.1", "db"] "db" (by simp)).2 (by decide)⟩

/-- C6 counterexample: with the host list consisting of the single IP literal
127.0.0.1 (every token parses as an IP), the DNS-name set of the built
template is empty, so the fixed literal token node is NOT appended. -/
theorem serverCSR_node_token_counterexample :
    parseIP "127.0.0.1" = some [127, 0, 0, 1]
    ∧ (serverCSR ["127.0.0.1"]).dnsNames = []
    ∧ "node" ∉ (serverCSR ["127.0.0.1"]).dnsNames := by
  refine ⟨by decide, by decide, by decide⟩

/-- C6 amended: serverCSR appends the literal token node to the DNS-name set
alongside each host token that does not parse as an IP literal, so node is in
the DNS-name set exactly when at least one host token fails IP parsing; when
every token parses as an IP literal, node is absent. -/
theorem serverCSR_node_token :
    ∀ hosts : List String,
      "node" ∈ (serverCSR hosts).dnsNames ↔ ∃ h, h ∈ hosts ∧ parseIP h = none := by
  intro hosts
  rw [serverCSR, mem_dnsNames_foldl]
  simp

/-- C1 counterexample: a fetched request whose condition list is non-empty and
whose most recently appended condition is Denied, on which the kubernetesSigner
variant (cited as a source of the claim) returns the certificate as a success
instead of a denial error: it decides by the FIRST condition, here Approved, so
an earlier condition does override the most recent one. -/
theorem await_denial_counterexample :
    (sampleCSR [⟨ConditionType.approved, "", ""⟩, ⟨ConditionType.denied, "", ""⟩]
        (some [1, 2, 3])).status.conditions ≠ []
    ∧ (sampleCSR [⟨ConditionType.approved, "", ""⟩, ⟨ConditionType.denied, "", ""⟩]
        (some [1, 2, 3])).status.conditions.getLast?.map Condition.type
      = some ConditionType.denied
    ∧ kubernetesSignerAwait
        (fun _ => Except.ok (sampleCSR
          [⟨ConditionType.approved, "", ""⟩, ⟨ConditionType.denied, "", ""⟩]
          (some [1, 2, 3]))) 1
      = some (Except.ok (some [1, 2, 3])) := by
  exact ⟨by decide, rfl, rfl⟩

/-- C1 amended: in the KubernetesCertificateManager poll loop, a fetched
request with a non-empty condition list whose most recently appended condition
is not Approved makes await return the denial error at that very poll, for
every remaining fuel (no further polling) and for every value of the
certificate field (never inspected: obj is arbitrary apart from its last
condition); in the kubernetesSigner variant the decision is made from the
FIRST condition instead, so the denial error is returned (again without
touching the certificate) exactly when the first condition is not Approved,
and with several conditions an earlier one does override the most recent. -/
theorem await_denies_on_latest_condition :
    (∀ (fetch : Nat → Except String CSRObject) (i : Nat) (obj : CSRObject)
        (cond : Condition) (fuel : Nat),
      fetch i = Except.ok obj →
      obj.status.conditions.getLast? = some cond →
      cond.type ≠ ConditionType.approved →
      awaitLoop fetch (fuel + 1) i = some (Except.error "csr not approved"))
    ∧ (∀ (resp : CSRObject) (cond : Condition),
        resp.status.conditions.head? = some cond →
        cond.type ≠ ConditionType.approved →
        kubernetesSignerDecision resp = Except.error "certificate not approved") := by
  constructor
  · intro fetch i obj cond fuel hf hlast hty
    have hstep : awaitStep (fetch i) = StepDecision.denied "csr not approved" := by
      rw [hf]
      simp [awaitStep, hlast, hty]
    simp [awaitLoop, hstep]
  · intro resp cond hhead hty
    simp [kubernetesSignerDecision, hhead, hty]

/-- C1 witness: a request whose single condition is Denied and whose
certificate field is even populated is rejected at the first poll. -/
theorem await_denies_witness :
    awaitLoop (fun _ => Except.ok (sampleCSR [⟨ConditionType.denied, "", ""⟩] (some [9]))) 5 0
      = some (Except.error "csr not approved") :=
  await_denies_on_latest_condition.1 _ 0
    (sampleCSR [⟨ConditionType.denied, "", ""⟩] (some [9]))
    ⟨ConditionType.denied, "", ""⟩ 4 rfl rfl (by decide)

/-- C2: awaitStep yields a certificate exactly when the fetched request has a
most-recent condition of type Approved and a present certificate field; an
approved request with an absent certificate keeps the loop polling (not an
error); and any certificate the loop ever returns came from such a fetched
request, so success is never fabricated earlier. -/
theorem await_success_iff_approved_with_cert :
    (∀ (f : Except String CSRObject) (c : Bytes),
      awaitStep f = StepDecision.provisioned c ↔
        ∃ obj, f = Except.ok obj
          ∧ obj.status.conditions.getLast?.map Condition.type = some ConditionType.approved
          ∧ obj.status.certificate = some c)
    ∧ (∀ obj : CSRObject,
        obj.status.conditions.getLast?.map Condition.type = some ConditionType.approved →
        obj.status.certificate = none →
        awaitStep (Except.ok obj) = StepDecision.keepWaiting)
    ∧ (∀ (fetch : Nat → Except String CSRObject) (fuel i : Nat) (c : Bytes),
        awaitLoop fetch fuel i = some (Except.ok c) →
        ∃ j obj, i ≤ j ∧ fetch j = Except.ok obj
          ∧ obj.status.conditions.getLast?.map Condition.type = some ConditionType.approved
          ∧ obj.status.certificate = some c) :=
  ⟨awaitStep_provisioned_iff, awaitStep_keepWaiting_of_approved_noCert,
    awaitLoop_ok_origin⟩

/-- C2 witness: an approved request with no certificate keeps the loop waiting,
and a returned certificate is traced back to an approved fetched request. -/
theorem await_success_witness :
    awaitStep (Except.ok (sampleCSR [⟨ConditionType.approved, "", ""⟩] none))
      = StepDecision.keepWaiting
    ∧ ∃ j obj, 0 ≤ j
        ∧ (Except.ok (sampleCSR [⟨ConditionType.approved, "", ""⟩] (some [7]))
            : Except String CSRObject) = Except.ok obj
        ∧ obj.status.conditions.getLast?.map Condition.type = some ConditionType.approved
        ∧ obj.status.certificate = some [7] := by
  refine ⟨?_, ?_⟩
  · exact await_success_iff_approved_with_cert.2.1
      (sampleCSR [⟨ConditionType.approved, "", ""⟩] none) rfl rfl
  · exact await_success_iff_approved_with_cert.2.2
      (fun _ => Except.ok (sampleCSR [⟨ConditionType.approved, "", ""⟩] (some [7])))
      1 0 [7] rfl

/-- C4 (evidence for the code bug): neither variant can return a timeout. The
poll-ticker loop of GetKubernetesCertificate has no deadline at all: on a
request that stays Pending it returns nothing after any number of polls. The
watch variant carries the one-hour watchTimeout, but when the deadline elapses
and the control plane closes the watch channel, the break statement only
leaves the select, so the loop keeps spinning forever instead of returning:
after any number k of pending events followed by closed-channel wakeups, the
loop has still returned nothing. -/
theorem await_never_times_out :
    (∀ obj : CSRObject, obj.status.conditions = [] →
      ∀ fuel i, awaitLoop (fun _ => Except.ok obj) fuel i = none)
    ∧ (∀ (uid k : Nat) (st : CSRStatus), st.conditions = [] →
        ∀ fuel i,
          watchLoop uid (fun j => if j < k then WatchEvent.update uid st else WatchEvent.closed)
            fuel i = none) := by
  constructor
  · intro obj hconds fuel i
    refine awaitLoop_none_of_keepWaiting _ (fun j => ?_) fuel i
    simp [awaitStep, hconds]
  · intro uid k st hconds fuel i
    refine watchLoop_none_of_keepWaiting uid _ (fun j => ?_) fuel i
    by_cases hj : j < k
    · simp [watchStep, hj, hconds]
    · simp [watchStep, hj]

/-- C4 witness: concretely, a permanently Pending request is still being
polled after five ticks, and the watch loop is still spinning five events
after three pending events and a closed channel. -/
theorem await_never_times_out_witness :
    awaitLoop (fun _ => Except.ok (sampleCSR [] none)) 5 0 = none
    ∧ watchLoop 7 (fun j => if j < 3 then WatchEvent.update 7 { conditions := [], certificate := none }
        else WatchEvent.closed) 5 0 = none :=
  ⟨await_never_times_out.1 (sampleCSR [] none) rfl 5 0,
    await_never_times_out.2 7 3 { conditions := [], certificate := none } rfl 5 0⟩

/-- C3: when creation collides with an existing same-name request, submit with
allowReuse adopts the existing request (same identity, no error, store
unchanged, so no duplicate) and without allowReuse surfaces the wrapped
already-exists cause, which is distinct by construction from the wrapped cause
of any other creation failure; and a second submit with allowReuse after a
successful first one returns the very same identity and state. -/
theorem submit_reuse_and_already_exists :
    (∀ (cp : ControlPlane) (csrName : String) (csr : Bytes) (wsa : Bool) (old : CSRObject),
      lookupCSR cp csrName = some old →
      submitCSR cp csrName csr wsa true = Except.ok (old, cp)
      ∧ submitCSR cp csrName csr wsa false =
          Except.error (SubmitError.createFailed csrName CreateFailure.alreadyExists))
    ∧ (∀ (cp : ControlPlane) (csrName : String) (csr : Bytes) (wsa ap : Bool) (msg : String),
        lookupCSR cp csrName = none → cp.createFault = some msg →
        submitCSR cp csrName csr wsa ap =
          Except.error (SubmitError.createFailed csrName (CreateFailure.other msg)))
    ∧ (∀ (cp : ControlPlane) (csrName : String) (csr : Bytes) (wsa : Bool)
        (obj : CSRObject) (cp' : ControlPlane),
        lookupCSR cp csrName = none →
        submitCSR cp csrName csr wsa true = Except.ok (obj, cp') →
        submitCSR cp' csrName csr wsa true = Except.ok (obj, cp')) := by
  refine ⟨fun cp csrName csr wsa old h => ⟨submitCSR_reuse cp csrName csr wsa old h, ?_⟩,
    fun cp csrName csr wsa ap msg hnone hfault => ?_, fun cp csrName csr wsa obj cp' hnone hsub => ?_⟩
  · simp [submitCSR, createCSR, buildCSRRequest, h]
  · simp [submitCSR, createCSR, buildCSRRequest, hnone, hfault]
  · cases hfault : cp.createFault with
    | some m =>
      exfalso
      simp [submitCSR, createCSR, buildCSRRequest, hnone, hfault] at hsub
    | none =>
      simp [submitCSR, createCSR, buildCSRRequest, hnone, hfault] at hsub
      obtain ⟨hobj, hcp⟩ := hsub
      subst hobj
      subst hcp
      exact submitCSR_reuse _ csrName csr wsa _ (by simp [lookupCSR])

/-- C3 witness: with one stored request, a reusing submit returns it with no
error and an exclusive submit reports the already-exists cause. -/
theorem submit_reuse_witness :
    submitCSR { csrs := [("test-csr", sampleCSR [] none)], nextUID := 1 }
        "test-csr" [] true true
      = Except.ok (sampleCSR [] none,
          { csrs := [("test-csr", sampleCSR [] none)], nextUID := 1 })
    ∧ submitCSR { csrs := [("test-csr", sampleCSR [] none)], nextUID := 1 }
        "test-csr" [] true false
      = Except.error (SubmitError.createFailed "test-csr" CreateFailure.alreadyExists) :=
  ⟨(submit_reuse_and_already_exists.1 _ "test-csr" [] true (sampleCSR [] none) (by decide)).1,
    (submit_reuse_and_already_exists.1 _ "test-csr" [] true (sampleCSR [] none) (by decide)).2⟩

/-- C7 counterexample: a stored entry holding exactly the cert blob and no key
blob, on which the legacy getSecrets helper (cited as a source of the claim)
returns with no error instead of a corrupt-entry error, handing the missing
blob through as nil, which its caller then treats like an absent entry. -/
theorem secret_get_counterexample :
    lookupSecret [("s", { cert := some [1], key := none })] "s"
      = some { cert := some [1], key := none }
    ∧ (some [1] : Option Bytes).isSome = true
    ∧ (none : Option Bytes).isSome = false
    ∧ getSecrets [("s", { cert := some [1], key := none })] "s"
      = Except.ok (some [1], none) := by
  exact ⟨by decide, rfl, rfl, rfl⟩

/-- C7 amended: both get variants return (nil, nil) with no error when no
entry exists; KubernetesCertificateManager.GetSecrets returns an error
whenever a stored entry is missing its cert or its key blob (in particular
when exactly one is present); the legacy getSecrets helper instead returns
the missing blobs as nil with no error. -/
theorem secret_get_absent_and_corrupt :
    (∀ (st : SecretStore) (name : String), lookupSecret st name = none →
      GetSecrets st name = Except.ok (none, none)
      ∧ getSecrets st name = Except.ok (none, none))
    ∧ (∀ (st : SecretStore) (name : String) (d : SecretData), lookupSecret st name = some d →
        (d.cert = none → GetSecrets st name = Except.error "missing certificate")
        ∧ (d.cert ≠ none → d.key = none → GetSecrets st name = Except.error "missing private key")
        ∧ getSecrets st name = Except.ok (d.cert, d.key)) := by
  refine ⟨fun st name h => ⟨?_, ?_⟩, fun st name d h => ⟨fun hc => ?_, fun hc hk => ?_, ?_⟩⟩
  · simp [GetSecrets, h]
  · simp [getSecrets, h]
  · simp [GetSecrets, h, hc]
  · simp [GetSecrets, h, hc, hk]
  · simp [getSecrets, h]

/-- C7 witness: the manager variant rejects a key-less entry, and an unknown
name yields (nil, nil) with no error. -/
theorem secret_get_witness :
    GetSecrets [("s", { cert := some [1], key := none })] "s"
      = Except.error "missing private key"
    ∧ GetSecrets [] "x" = Except.ok (none, none) :=
  ⟨(secret_get_absent_and_corrupt.2 [("s", { cert := some [1], key := none })] "s"
      { cert := some [1], key := none } (by decide)).2.1 (by decide) rfl,
    (secret_get_absent_and_corrupt.1 [] "x" rfl).1⟩

/-- C8: the key-usage set requested by GetKubernetesCertificate is exactly
digital-signature, key-encipherment and client-auth, with server-auth present
iff server authentication is wanted, and the signer identifier is
legacy-unknown when server auth is wanted and kube-apiserver-client
otherwise. -/
theorem buildCSRRequest_usages_signer :
    ∀ (csrName : String) (csr : Bytes) (wsa : Bool),
      (buildCSRRequest csrName csr wsa).usages =
        [KeyUsage.digitalSignature, KeyUsage.keyEncipherment, KeyUsage.clientAuth]
          ++ (if wsa then [KeyUsage.serverAuth] else [])
      ∧ (∀ u : KeyUsage, u ∈ (buildCSRRequest csrName csr wsa).usages ↔
          (u = KeyUsage.digitalSignature ∨ u = KeyUsage.keyEncipherment
            ∨ u = KeyUsage.clientAuth ∨ (wsa = true ∧ u = KeyUsage.serverAuth)))
      ∧ (buildCSRRequest csrName csr wsa).signerName =
          some (if wsa then "kubernetes.io/legacy-unknown"
            else "kubernetes.io/kube-apiserver-client") := by
  intro csrName csr wsa
  refine ⟨?_, fun u => ?_, ?_⟩
  · cases wsa <;> rfl
  · cases wsa <;> cases u <;> simp [buildCSRRequest, managerKeyUsages]
  · cases wsa <;> rfl

/-- C9: without faults, writeFiles succeeds for every starting filesystem
state (in particular when the directory already exists): the directory is
present, the key file carries the key bytes with mode 0400, the certificate
file carries the certificate bytes with mode 0644, and when a CA source is
configured the ca.crt symlink points at it even if a symlink was already there
(the stale entry is removed first); and every faulting primitive that the run
reaches makes writeFiles return an error, including a failing removal of a
pre-existing ca.crt, which the source only logs but which then makes the
symlink creation fail on the still-occupied path. The path hypotheses only
rule out a file prefix that collides with the ca.crt name itself. -/
theorem writeFiles_persists :
    (∀ (certsDir caSrc : String) (fs : FileSystem) (pfx : String) (cert key : Bytes),
      joinPath certsDir (pfx ++ ".key") ≠ joinPath certsDir (pfx ++ ".crt") →
      (caSrc.length ≠ 0 → joinPath certsDir (pfx ++ ".key") ≠ joinPath certsDir "ca.crt") →
      (caSrc.length ≠ 0 → joinPath certsDir (pfx ++ ".crt") ≠ joinPath certsDir "ca.crt") →
      ∃ fs', writeFiles noFaults certsDir caSrc fs pfx cert key = Except.ok fs'
        ∧ certsDir ∈ fs'.dirs
        ∧ lookupFile fs' (joinPath certsDir (pfx ++ ".key")) = some (key, 0o400)
        ∧ lookupFile fs' (joinPath certsDir (pfx ++ ".crt")) = some (cert, 0o644)
        ∧ (caSrc.length ≠ 0 → lookupLink fs' (joinPath certsDir "ca.crt") = some caSrc))
    ∧ (∀ (faults : IOFaults) (certsDir caSrc : String) (fs : FileSystem)
        (pfx : String) (cert key : Bytes), faults.mkdirFails = true →
        ∃ e, writeFiles faults certsDir caSrc fs pfx cert key = Except.error e)
    ∧ (∀ (faults : IOFaults) (certsDir caSrc : String) (fs : FileSystem)
        (pfx : String) (cert key : Bytes),
        faults.mkdirFails = false → faults.writeKeyFails = true →
        ∃ e, writeFiles faults certsDir caSrc fs pfx cert key = Except.error e)
    ∧ (∀ (faults : IOFaults) (certsDir caSrc : String) (fs : FileSystem)
        (pfx : String) (cert key : Bytes),
        faults.mkdirFails = false → faults.writeKeyFails = false →
        faults.writeCertFails = true →
        ∃ e, writeFiles faults certsDir caSrc fs pfx cert key = Except.error e)
    ∧ (∀ (faults : IOFaults) (certsDir caSrc : String) (fs : FileSystem)
        (pfx : String) (cert key : Bytes),
        faults.mkdirFails = false → faults.writeKeyFails = false →
        faults.writeCertFails = false → faults.symlinkFails = true →
        caSrc.length ≠ 0 →
        ∃ e, writeFiles faults certsDir caSrc fs pfx cert key = Except.error e)
    ∧ (∀ (faults : IOFaults) (certsDir caSrc : String) (fs : FileSystem)
        (pfx : String) (cert key : Bytes),
        faults.mkdirFails = false → faults.writeKeyFails = false →
        faults.writeCertFails = false → faults.removeFails = true →
        caSrc.length ≠ 0 →
        fs.symlinks.any (fun p => p.1 = joinPath certsDir "ca.crt") = true →
        ∃ e, writeFiles faults certsDir caSrc fs pfx cert key = Except.error e) := by
  refine ⟨?_, ?_, ?_, ?_, ?_, ?_⟩
  · intro certsDir caSrc fs pfx cert key hkc hkca hcca
    obtain ⟨fs1, hmk, hdir1, hfiles1, hsym1⟩ := mkdirAllFS_noFault fs certsDir
    set keyPath := joinPath certsDir (pfx ++ ".key") with hkpDef
    set certPath := joinPath certsDir (pfx ++ ".crt") with hcpDef
    set linkDest := joinPath certsDir "ca.crt" with hldDef
    set fs2 : FileSystem := { fs1 with
      files := (keyPath, (key, 0o400)) :: fs1.files.filter (fun p => p.1 ≠ keyPath) }
      with hfs2Def
    set fs3 : FileSystem := { fs2 with
      files := (certPath, (cert, 0o644)) :: fs2.files.filter (fun p => p.1 ≠ certPath) }
      with hfs3Def
    have hrun2 : writeFileFS false fs1 keyPath key 0o400 = Except.ok fs2 :=
      writeFileFS_noFault fs1 keyPath key 0o400
    have hrun3 : writeFileFS false fs2 certPath cert 0o644 = Except.ok fs3 :=
      writeFileFS_noFault fs2 certPath cert 0o644
    have hkey3 : lookupFile fs3 keyPath = some (key, 0o400) := by
      rw [hfs3Def, lookupFile_write_other _ _ _ _ _ hkc, hfs2Def, lookupFile_write_self]
    have hcert3 : lookupFile fs3 certPath = some (cert, 0o644) := by
      rw [hfs3Def, lookupFile_write_self]
    have hdir3 : certsDir ∈ fs3.dirs := hdir1
    by_cases hlen : caSrc.length ≠ 0
    · set fs4 := removeFS false fs3 linkDest with hfs4Def
      refine ⟨{ fs4 with symlinks := (linkDest, caSrc) :: fs4.symlinks },
        ?_, ?_, ?_, ?_, fun _ => ?_⟩
      · have hpe : pathExists fs4 linkDest = false := by
          rw [hfs4Def]; exact pathExists_removeFS_self _ _
        unfold writeFiles
        dsimp only [noFaults]
        rw [hmk]
        dsimp only
        rw [← hkpDef, hrun2]
        dsimp only
        rw [← hcpDef, hrun3]
        dsimp only
        rw [if_pos hlen, ← hldDef, ← hfs4Def, symlinkFS_noFault _ _ _ hpe]
      · show certsDir ∈ fs4.dirs
        rw [hfs4Def]
        exact removeFS_dirs_mem false _ _ _ (ne_joinPath_self certsDir "ca.crt") hdir3
      · show lookupFile fs4 keyPath = some (key, 0o400)
        rw [hfs4Def, removeFS_files_ne false _ _ _ (hkca hlen)]
        exact hkey3
      · show lookupFile fs4 certPath = some (cert, 0o644)
        rw [hfs4Def, removeFS_files_ne false _ _ _ (hcca hlen)]
        exact hcert3
      · exact lookupLink_cons_self _ _ _
    · refine ⟨fs3, ?_, hdir3, hkey3, hcert3, fun hl => absurd hl hlen⟩
      unfold writeFiles
      dsimp only [noFaults]
      rw [hmk]
      dsimp only
      rw [← hkpDef, hrun2]
      dsimp only
      rw [← hcpDef, hrun3]
      dsimp only
      rw [if_neg hlen]
  · intro faults certsDir caSrc fs pfx cert key hm
    exact ⟨"could not create directory", by unfold writeFiles; rw [hm]; rfl⟩
  · intro faults certsDir caSrc fs pfx cert key hm hk
    obtain ⟨fs1, hmk, -, -, -⟩ := mkdirAllFS_noFault fs certsDir
    exact ⟨"could not write file", by unfold writeFiles; rw [hm, hmk, hk]; rfl⟩
  · intro faults certsDir caSrc fs pfx cert key hm hk hc
    obtain ⟨fs1, hmk, -, -, -⟩ := mkdirAllFS_noFault fs certsDir
    refine ⟨"could not write file", ?_⟩
    unfold writeFiles
    rw [hm, hmk]
    dsimp only
    rw [hk, writeFileFS_noFault]
    dsimp only
    rw [hc]
    rfl
  · intro faults certsDir caSrc fs pfx cert key hm hk hc hs hlen
    obtain ⟨fs1, hmk, -, -, -⟩ := mkdirAllFS_noFault fs certsDir
    refine ⟨"could not create symlink", ?_⟩
    unfold writeFiles
    rw [hm, hmk]
    dsimp only
    rw [hk, writeFileFS_noFault]
    dsimp only
    rw [hc, writeFileFS_noFault]
    dsimp only
    rw [if_pos hlen, hs]
    simp [symlinkFS]
  · intro faults certsDir caSrc fs pfx cert key hm hk hc hr hlen hprev
    obtain ⟨fs1, hmk, -, -, hsym1⟩ := mkdirAllFS_noFault fs certsDir
    refine ⟨"could not create symlink", ?_⟩
    unfold writeFiles
    rw [hm, hmk]
    dsimp only
    rw [hk, writeFileFS_noFault]
    dsimp only
    rw [hc, writeFileFS_noFault]
    dsimp only
    rw [if_pos hlen, hr]
    simp [removeFS, symlinkFS, pathExists, hsym1, hprev]

/-- C9 witness: on an empty filesystem with a CA source configured, the run
succeeds and produces the two files and the symlink; and a failing directory
creation aborts with an error. -/
theorem writeFiles_persists_witness :
    (∃ fs', writeFiles noFaults "d" "src" { dirs := [], files := [], symlinks := [] }
        "node" [1] [2] = Except.ok fs'
      ∧ "d" ∈ fs'.dirs
      ∧ lookupFile fs' (joinPath "d" ("node" ++ ".key")) = some ([2], 0o400)
      ∧ lookupFile fs' (joinPath "d" ("node" ++ ".crt")) = some ([1], 0o644)
      ∧ (("src" : String).length ≠ 0 → lookupLink fs' (joinPath "d" "ca.crt") = some "src"))
    ∧ (∃ e, writeFiles { mkdirFails := true } "d" "src"
        { dirs := [], files := [], symlinks := [] } "node" [1] [2] = Except.error e) :=
  ⟨writeFiles_persists.1 "d" "src" { dirs := [], files := [], symlinks := [] }
      "node" [1] [2] (by decide) (fun _ => by decide) (fun _ => by decide),
    writeFiles_persists.2.1 { mkdirFails := true } "d" "src"
      { dirs := [], files := [], symlinks := [] } "node" [1] [2] rfl⟩

/-- C10: a successful requestCertificate run returns exactly a pair that
passed the tls.X509KeyPair check, where the key is the PEM encoding of the
freshly generated private key and the certificate came from the manager; and
when the pair check fails after every earlier step succeeded, the run returns
that error and, the error branch of Except carrying no payload, no certificate
or key bytes. -/
theorem requestCertificate_checks_keypair :
    (∀ (ops : CryptoOps) (getCert : Bytes → Except String Bytes) (c k : Bytes),
      requestCertificate ops getCert = Except.ok (c, k) →
      ops.x509KeyPair c k = Except.ok ()
        ∧ (∃ pk, ops.generateKey = Except.ok pk
            ∧ k = ops.pemEncodeRSAKey (ops.marshalPKCS1 pk))
        ∧ (∃ csr, getCert (ops.pemEncodeCertRequest csr) = Except.ok c))
    ∧ (∀ (ops : CryptoOps) (getCert : Bytes → Except String Bytes)
        (pk csr cert : Bytes) (e : String),
        ops.generateKey = Except.ok pk →
        ops.createCertRequest pk = Except.ok csr →
        getCert (ops.pemEncodeCertRequest csr) = Except.ok cert →
        ops.x509KeyPair cert (ops.pemEncodeRSAKey (ops.marshalPKCS1 pk)) = Except.error e →
        requestCertificate ops getCert = Except.error e) := by
  constructor
  · intro ops getCert c k hrun
    unfold requestCertificate at hrun
    cases hg : ops.generateKey with
    | error e => rw [hg] at hrun; cases hrun
    | ok pk =>
      rw [hg] at hrun
      cases hcsr : ops.createCertRequest pk with
      | error e => simp only [hcsr] at hrun; cases hrun
      | ok csr =>
        simp only [hcsr] at hrun
        cases hget : getCert (ops.pemEncodeCertRequest csr) with
        | error e => simp only [hget] at hrun; cases hrun
        | ok pemCert =>
          simp only [hget] at hrun
          cases hkp : ops.x509KeyPair pemCert (ops.pemEncodeRSAKey (ops.marshalPKCS1 pk)) with
          | error e => simp only [hkp] at hrun; cases hrun
          | ok u =>
            simp only [hkp] at hrun
            injection hrun with hpair
            injection hpair with h1 h2
            subst h1
            subst h2
            refine ⟨?_, ⟨pk, rfl, rfl⟩, ⟨csr, hget⟩⟩
            cases u
            exact hkp
  · intro ops getCert pk csr cert e hg hcsr hget hkp
    unfold requestCertificate
    rw [hg]
    simp only [hcsr, hget, hkp]

/-- C10 witness: with concrete primitives whose pair check accepts exactly the
issued pair, the accepted pair did pass the check; and with a rejecting pair
check the run returns the rejection error. -/
theorem requestCertificate_checks_keypair_witness :
    ({ generateKey := Except.ok [1]
       marshalPKCS1 := fun b => b
       pemEncodeRSAKey := fun b => b
       createCertRequest := fun _ => Except.ok [2]
       pemEncodeCertRequest := fun b => b
       x509KeyPair := fun c k =>
         if c = [9] ∧ k = [1] then Except.ok () else Except.error "bad" } :
        CryptoOps).x509KeyPair [9] [1] = Except.ok ()
    ∧ requestCertificate
        { generateKey := Except.ok [1]
          marshalPKCS1 := fun b => b
          pemEncodeRSAKey := fun b => b
          createCertRequest := fun _ => Except.ok [2]
          pemEncodeCertRequest := fun b => b
          x509KeyPair := fun _ _ => Except.error "bad" }
        (fun _ => Except.ok [9]) = Except.error "bad" := by
  refine ⟨?_, ?_⟩
  · exact (requestCertificate_checks_keypair.1
      { generateKey := Except.ok [1]
        marshalPKCS1 := fun b => b
        pemEncodeRSAKey := fun b => b
        createCertRequest := fun _ => Except.ok [2]
        pemEncodeCertRequest := fun b => b
        x509KeyPair := fun c k =>
          if c = [9] ∧ k = [1] then Except.ok () else Except.error "bad" }
      (fun _ => Except.ok [9]) [9] [1] rfl).1
  · exact requestCertificate_checks_keypair.2
      { generateKey := Except.ok [1]
        marshalPKCS1 := fun b => b
        pemEncodeRSAKey := fun b => b
        createCertRequest := fun _ => Except.ok [2]
        pemEncodeCertRequest := fun b => b
        x509KeyPair := fun _ _ => Except.error "bad" }
      (fun _ => Except.ok [9]) [1] [2] [9] "bad" rfl rfl rfl rfl

end CockroachK8s
